import Mathlib

/-!
Verification development for the Sanadenta scheduling API (src/server.js).

The file shallowly embeds the pure decision logic of the two source
revisions contained in server.js: calendar math (weekday classification,
last Monday of month, surgeon day), the slot grid generator, the duration
resolver, the half-open interval overlap test, and the free-slots and
create-booking request pipelines.  Instants are modelled as integer
milliseconds; wall-clock strings are parsed with char-list helpers that
mirror the JavaScript split/Number behaviour on the inputs the routes
accept.  Calls to the external calendar provider are modelled by passing
the fetched busy intervals as an explicit argument; the event insertion
is visible as the `created` result constructor.
-/

/-! ## String parsing helpers (model of split and Number on route inputs) -/

def splitCharList : List Char → Char → List (List Char)
  | [], _ => [[]]
  | x :: xs, c =>
    let r := splitCharList xs c
    if x = c then [] :: r
    else
      match r with
      | [] => [[x]]
      | h :: t => (x :: h) :: t

/-- Model of the JavaScript s.split(sep) for a one-character separator. -/
def splitOnChar (s : String) (c : Char) : List String :=
  (splitCharList s.data c).map String.mk

def charsAreDigits (l : List Char) : Bool := l.all (fun ch => ch.isDigit)

def digitsVal (l : List Char) : Nat :=
  l.foldl (fun a ch => a * 10 + (ch.toNat - 48)) 0

/-- Parse a nonempty all-digit string as a natural number. -/
def parseNatDigits (l : List Char) : Option Nat :=
  if l ≠ [] ∧ charsAreDigits l = true then some (digitsVal l) else none

/-! ## Clock / calendar math

Dates are proleptic Gregorian; the day-number computation follows the
standard civil-calendar algorithm, which is how the JavaScript Date and
luxon objects of the source behave for the date-only arithmetic used here.
-/

structure SimpleDate where
  year : Int
  month : Int
  day : Int
deriving DecidableEq, Repr

def isLeapYear (y : Int) : Bool :=
  y % 4 == 0 && (y % 100 != 0 || y % 400 == 0)

def daysInMonth (y m : Int) : Int :=
  if m = 2 then (if isLeapYear y then 29 else 28)
  else if m = 4 ∨ m = 6 ∨ m = 9 ∨ m = 11 then 30
  else 31

/-- Days since 1970-01-01 of a civil date (month is 1-based). -/
def daysFromCivil (y m d : Int) : Int :=
  let yAdj := if m ≤ 2 then y - 1 else y
  let era := Int.fdiv yAdj 400
  let yoe := yAdj - era * 400
  let mp := (m + 9) % 12
  let doy := Int.fdiv (153 * mp + 2) 5 + d - 1
  let doe := yoe * 365 + Int.fdiv yoe 4 - Int.fdiv yoe 100 + doy
  era * 146097 + doe - 719468

/-- Model of JavaScript dateObj.getDay(): 0 = Sunday .. 6 = Saturday. -/
def jsGetDay (dt : SimpleDate) : Int :=
  (daysFromCivil dt.year dt.month dt.day + 4) % 7

/-- Source isWeekdayAllowed: Monday, Thursday or Friday.  An invalid
    parsed date (modelled as none) has getDay NaN, and NaN comparisons
    are false in JavaScript, so the allowed check fails. -/
def isWeekdayAllowed (d : Option SimpleDate) : Bool :=
  match d with
  | some dt => jsGetDay dt == 1 || jsGetDay dt == 4 || jsGetDay dt == 5
  | none => false

/-- Source getLastMondayOfMonth(year, monthIndex0): the last calendar day
    of the month, walked back to the most recent Monday.  The month index
    is 0-based as in JavaScript.  The resulting day is at least 22, so
    the JavaScript Date constructor never rolls over to another month. -/
def getLastMondayOfMonth (year monthIndex0 : Int) : SimpleDate :=
  let m := monthIndex0 + 1
  let lastDate := daysInMonth year m
  let d := jsGetDay ⟨year, m, lastDate⟩
  let diff := if d ≥ 1 then d - 1 else 6
  ⟨year, m, lastDate - diff⟩

/-- Source isSurgeonDay: the date equals the last Monday of its month,
    compared componentwise as in the source.  For an invalid date all
    NaN comparisons are false. -/
def isSurgeonDay (d : Option SimpleDate) : Bool :=
  match d with
  | some dt =>
    let lastMon := getLastMondayOfMonth dt.year (dt.month - 1)
    dt.year == lastMon.year && dt.month == lastMon.month && dt.day == lastMon.day
  | none => false

/-! ## Wall-clock parsing and instants -/

/-- Source toMinutes: split on the colon and combine hours and minutes.
    Inputs that are not two numeric fields give NaN in JavaScript; the
    routes only call this behind a format check, so the fallback 0 is
    unreachable there. -/
def toMinutes (hhmm : String) : Int :=
  match splitOnChar hhmm ':' with
  | h :: m :: _ =>
    match parseNatDigits h.data, parseNatDigits m.data with
    | some hh, some mm => (hh : Int) * 60 + mm
    | _, _ => 0
  | _ => 0

/-- The route regex for dates: four digits, dash, two digits, dash, two digits. -/
def dateFormatOk (s : String) : Bool :=
  match splitOnChar s '-' with
  | [y, m, d] =>
    y.data.length == 4 && m.data.length == 2 && d.data.length == 2 &&
      charsAreDigits y.data && charsAreDigits m.data && charsAreDigits d.data
  | _ => false

/-- The route regex for times: two digits, colon, two digits. -/
def timeFormatOk (s : String) : Bool :=
  match splitOnChar s ':' with
  | [h, m] =>
    h.data.length == 2 && m.data.length == 2 &&
      charsAreDigits h.data && charsAreDigits m.data
  | _ => false

/-- Model of new Date("YYYY-MM-DDT00:00:00"): some parsed date when the
    string denotes a real calendar day, none (Invalid Date) otherwise. -/
def parseDateYMD (s : String) : Option SimpleDate :=
  match splitOnChar s '-' with
  | [ys, ms, ds] =>
    match parseNatDigits ys.data, parseNatDigits ms.data, parseNatDigits ds.data with
    | some y, some m, some d =>
      if 1 ≤ (m : Int) ∧ (m : Int) ≤ 12 ∧ 1 ≤ (d : Int) ∧ (d : Int) ≤ daysInMonth y m
      then some ⟨(y : Int), (m : Int), (d : Int)⟩ else none
    | _, _, _ => none
  | _ => none

/-- Whether the two regex-checked time fields are a real clock time, as
    required by the Date constructor of the booking route.  The ISO
    special case 24:00 is unreachable behind the working-hours gate. -/
def validTimeHM (s : String) : Bool :=
  match splitOnChar s ':' with
  | h :: m :: _ =>
    match parseNatDigits h.data, parseNatDigits m.data with
    | some hh, some mm => hh < 24 && mm < 60
    | _, _ => false
  | _ => false

/-- Instant in milliseconds of a date at a given minutes-of-day.  The
    model places the server clock at UTC; a fixed clinic offset would
    shift every instant of a request equally and affects no claim. -/
def dateTimeMs (dt : SimpleDate) (minutesOfDay : Int) : Int :=
  (daysFromCivil dt.year dt.month dt.day * 1440 + minutesOfDay) * 60000

/-- Instant in milliseconds of a date at a given seconds-of-day. -/
def dateTimeSecMs (dt : SimpleDate) (secondsOfDay : Int) : Int :=
  (daysFromCivil dt.year dt.month dt.day * 86400 + secondsOfDay) * 1000

/-! ## Conflict resolver -/

/-- Source overlaps: half-open interval overlap. -/
def overlaps (aStart aEnd bStart bEnd : Int) : Bool :=
  decide (aStart < bEnd) && decide (aEnd > bStart)

/-- The inline conflict check of both routes: some busy interval overlaps
    the candidate interval. -/
def hasConflictMs (startMs endMs : Int) (busy : List (Int × Int)) : Bool :=
  busy.any (fun b => overlaps startMs endMs b.1 b.2)

/-! ## Slot grid generator -/

/-- The slot loop of generateDaySlots and generateSlots: emit t from the
    start value while t is at most latestStart, stepping by step.  The
    source loop does not terminate for step at most 0; that case is cut
    off here and is unreachable from the routes, which pass step 15. -/
def slotsFrom (t latestStart step : Int) : List Int :=
  if t ≤ latestStart then
    if 0 < step then t :: slotsFrom (t + step) latestStart step else []
  else []
termination_by (latestStart + 1 - t).toNat
decreasing_by
  simp_wf
  omega

/-- Number of iterations the slot loop performs. -/
def slotCount (t latestStart step : Int) : Nat :=
  if t ≤ latestStart then (latestStart - t).toNat / step.toNat + 1 else 0

/-- Source pad2: left-pad the decimal representation to two characters. -/
def pad2 (n : Int) : String :=
  let s := toString n
  if s.data.length ≥ 2 then s else "0" ++ s

/-- Formatting of an emitted slot value as HH:MM.  Emitted values are
    nonnegative minutes-of-day, where floor division and the JavaScript
    remainder agree with fdiv and emod. -/
def formatHHMM (t : Int) : String :=
  pad2 (Int.fdiv t 60) ++ ":" ++ pad2 (t % 60)

/-- The common minute-level slot computation of both revisions. -/
def slotMinutes (startHHMM endHHMM : String) (stepMinutes durationMinutes : Int) : List Int :=
  slotsFrom (toMinutes startHHMM) (toMinutes endHHMM - durationMinutes) stepMinutes

/-- Source generateDaySlots (first revision).  The dateStr argument is
    accepted and ignored, as in the source. -/
def generateDaySlots (dateStr startHHMM endHHMM : String)
    (stepMinutes durationMinutes : Int) : List String :=
  (slotMinutes startHHMM endHHMM stepMinutes durationMinutes).map formatHHMM

/-- Source generateSlots (second revision): identical computation without
    the date argument. -/
def generateSlots (startHHMM endHHMM : String)
    (stepMinutes durationMinutes : Int) : List String :=
  (slotMinutes startHHMM endHHMM stepMinutes durationMinutes).map formatHHMM

/-! ## Configuration constants of the first revision -/

def WORK_START : String := "08:00"

def WORK_END : String := "17:00"

def SLOT_STEP_MINUTES : Int := 15

def DEFAULT_DURATION_MINUTES : Int := 15

def ALLOWED_DURATIONS : List Int := [15, 30, 60]

/-- Source SERVICE_DURATIONS map (first revision).  All stored values are
    nonzero, hence truthy in the JavaScript lookup guard. -/
def SERVICE_DURATIONS (s : String) : Option Int :=
  if s = "Konsultacija" then some 15
  else if s = "Konsultacija (15 min)" then some 15
  else if s = "Trumpas vizitas" then some 30
  else if s = "Kontrolė" then some 30
  else if s = "Vizitas 30" then some 30
  else if s = "Vizitas" then some 60
  else if s = "Vizitas 60" then some 60
  else if s = "Ilgas vizitas" then some 60
  else none

/-! ## JavaScript request values and duration resolution -/

/-- The JavaScript values a request can supply for durationMinutes.
    Finite numbers are modelled as integers: the only way a non-integral
    finite number reaches the resolver is a decimal literal, which can
    never be a member of the allowed set; it is modelled as nan, which
    also produces a validation error. -/
inductive JSValue
  | undef
  | jsNull
  | num (n : Int)
  | nan
  | str (s : String)
deriving DecidableEq, Repr

/-- Model of String(v) as used in the presence guard. -/
def jsToString : JSValue → String
  | .undef => "undefined"
  | .jsNull => "null"
  | .num n => toString n
  | .nan => "NaN"
  | .str s => s

/-- Model of Number(v): none is NaN (not finite). -/
def jsToNumber : JSValue → Option Int
  | .undef => none
  | .jsNull => some 0
  | .num n => some n
  | .nan => none
  | .str s => if s = "" then some 0 else (parseNatDigits s.data).map (fun n => (n : Int))

/-- Model of JavaScript truthiness of a request value. -/
def jsFalsy : JSValue → Bool
  | .undef => true
  | .jsNull => true
  | .nan => true
  | .num n => n == 0
  | .str s => s == ""

/-- The presence guard of resolveDuration: not undefined, not null and
    String(v) not empty. -/
def durationProvided (v : JSValue) : Bool :=
  !(v == JSValue.undef) && !(v == JSValue.jsNull) && !(jsToString v == "")

inductive DurationSource
  | durationMinutes
  | service
  | defaultDuration
deriving DecidableEq, Repr

inductive ResolveResult
  | ok (duration : Int) (source : DurationSource)
  | error (msg : String)
deriving DecidableEq, Repr

/-- Source resolveDuration (first revision): explicit value first with
    finiteness and allowed-set validation, then the truthy service-map
    lookup, then the configured default. -/
def resolveDuration (service : Option String) (durationMinutes : JSValue) : ResolveResult :=
  if durationProvided durationMinutes then
    match jsToNumber durationMinutes with
    | none => .error "Invalid durationMinutes"
    | some dur =>
      if dur ∈ ALLOWED_DURATIONS then .ok dur .durationMinutes
      else .error "durationMinutes must be one of: 15, 30, 60"
  else
    match service with
    | some s =>
      if s ≠ "" then
        match SERVICE_DURATIONS s with
        | some d => .ok d .service
        | none => .ok DEFAULT_DURATION_MINUTES .defaultDuration
      else .ok DEFAULT_DURATION_MINUTES .defaultDuration
    | none => .ok DEFAULT_DURATION_MINUTES .defaultDuration

/-- Source validateWithinWorkingHours. -/
def validateWithinWorkingHours (time : String) (duration : Int) : Bool :=
  let startMin := toMinutes time
  let endMin := startMin + duration
  decide (startMin ≥ toMinutes WORK_START) && decide (endMin ≤ toMinutes WORK_END)

/-! ## Day-level availability gating

The free-slots and create-booking routes run the same two checks in the
same order: weekday allowed, then surgeon day.  The decision type makes
the branch that fired visible; the routes map it to their response text.
-/

inductive DayReason
  | weekday
  | surgeonDay
deriving DecidableEq, Repr

inductive AvailabilityDecision
  | notAllowed (reason : DayReason)
  | allowed
deriving DecidableEq, Repr

def checkDayAvailability (d : Option SimpleDate) : AvailabilityDecision :=
  if !(isWeekdayAllowed d) then .notAllowed .weekday
  else if isSurgeonDay d then .notAllowed .surgeonDay
  else .allowed

def WEEKDAY_LIST_MSG : String := "Clinic does not work this day (allowed: Mon/Thu/Fri)."

def SURGEON_LIST_MSG : String := "Surgeon day (manual scheduling via administrator)."

def reasonMessage : DayReason → String
  | .weekday => WEEKDAY_LIST_MSG
  | .surgeonDay => SURGEON_LIST_MSG

/-! ## The free-slots route (first revision) -/

/-- The JSON body of a successful free-slots response; fields the route
    omits in the not-allowed branch are optional. -/
structure FreeSlotsBody where
  allowed : Bool
  reason : Option String
  durationMinutes : Int
  durationSource : Option DurationSource
  slots : List String
deriving DecidableEq, Repr

inductive FreeSlotsResult
  | badRequest (error : String)
  | success (body : FreeSlotsBody)
deriving DecidableEq, Repr

/-- Source GET /free-slots (first revision).  The busy intervals the
    provider returned for the fetched window are passed in explicitly. -/
def freeSlots (date : String) (service : Option String) (durationMinutes : JSValue)
    (busy : List (Int × Int)) : FreeSlotsResult :=
  if !(dateFormatOk date) then .badRequest "Invalid date. Use YYYY-MM-DD"
  else
    match resolveDuration service durationMinutes with
    | .error e => .badRequest e
    | .ok dur src =>
      let dayObj := parseDateYMD date
      match checkDayAvailability dayObj with
      | .notAllowed r => .success ⟨false, some (reasonMessage r), dur, none, []⟩
      | .allowed =>
        match dayObj with
        | none => .success ⟨true, none, dur, some src, []⟩
        | some dt =>
          let candidates := generateDaySlots date WORK_START WORK_END SLOT_STEP_MINUTES dur
          let free := candidates.filter (fun hhmm =>
            let s := dateTimeMs dt (toMinutes hhmm)
            !(hasConflictMs s (s + dur * 60000) busy))
          .success ⟨true, none, dur, some src, free⟩

/-- The freebusy window the first revision requests: from T00:00:00 to
    T23:59:59 of the date. -/
def freeSlotsFetchWindowRev1 (date : String) : Option (Int × Int) :=
  match parseDateYMD date with
  | some dt => some (dateTimeSecMs dt 0, dateTimeSecMs dt 86399)
  | none => none

/-- The freebusy window the second revision requests: the start of the
    day and the start of the day plus one day. -/
def freeSlotsFetchWindowRev2 (date : String) : Option (Int × Int) :=
  match parseDateYMD date with
  | some dt => some (dateTimeSecMs dt 0, dateTimeSecMs dt 86400)
  | none => none

/-- Modelled from the spec: the full requested day as the half-open
    window from dayStart to dayStart plus 24 hours, against which the
    fetched windows are compared. -/
def dayWindow (dt : SimpleDate) : Int × Int :=
  (dateTimeSecMs dt 0, dateTimeSecMs dt 0 + 86400000)

/-! ## The create-booking route (first revision) -/

/-- The request body; absent fields are none.  The service field uses
    the destructuring default Konsultacija when absent. -/
structure BookingBody where
  name : Option String
  phone : Option String
  date : Option String
  time : Option String
  service : Option String
  durationMinutes : JSValue
deriving DecidableEq, Repr

/-- Falsiness of an optional string field: absent or empty. -/
def jsStrFalsy : Option String → Bool
  | none => true
  | some s => s == ""

def effectiveService (b : BookingBody) : String := b.service.getD "Konsultacija"

inductive BookingResult
  | badRequest (error : String)
  | conflict (error : String)
  | created (summary description : String) (startMs endMs durationMinutes : Int)
      (source : DurationSource)
deriving DecidableEq, Repr

def CONFLICT_MSG : String := "Time slot is already booked. Please choose another time."

def bookingSummary (b : BookingBody) : String :=
  "Sanadenta — " ++ effectiveService b ++ " — " ++ (b.name.getD "")

def bookingDescription (b : BookingBody) (dur : Int) : String :=
  "Pacientas: " ++ (b.name.getD "") ++ "\nTelefonas: " ++ (b.phone.getD "") ++
    "\nPaslauga: " ++ effectiveService b ++ "\nTrukmė: " ++ toString dur ++
    " min\nSukurta per Vapi."

/-- The validation pipeline of POST /create-booking (first revision),
    every gate before the freebusy conflict check, in source order.  On
    success it yields the candidate interval, the resolved duration and
    its source tag.  The dead none branch for the parsed date is
    unreachable: an unparseable date already failed the weekday gate. -/
def bookingGate (b : BookingBody) : Except String (Int × Int × Int × DurationSource) :=
  if jsStrFalsy b.name || jsStrFalsy b.phone || jsStrFalsy b.date || jsStrFalsy b.time then
    .error "Missing required fields: name, phone, date, time"
  else
    let date := b.date.getD ""
    let time := b.time.getD ""
    if !(dateFormatOk date) then .error "Invalid date. Use YYYY-MM-DD"
    else if !(timeFormatOk time) then .error "Invalid time. Use HH:MM"
    else
      match resolveDuration (some (effectiveService b)) b.durationMinutes with
      | .error e => .error e
      | .ok dur src =>
        let dayObj := parseDateYMD date
        if !(isWeekdayAllowed dayObj) then
          .error "Clinic does not work this day (allowed: Mon/Thu/Fri)."
        else if isSurgeonDay dayObj then
          .error "Surgeon day. Please schedule via administrator."
        else if !(validateWithinWorkingHours time dur) then
          .error "Outside working hours (08:00–17:00)."
        else
          match dayObj with
          | none => .error "Invalid date/time format"
          | some dt =>
            if !(validTimeHM time) then .error "Invalid date/time format"
            else
              let startMs := dateTimeMs dt (toMinutes time)
              .ok (startMs, startMs + dur * 60000, dur, src)

/-- Source POST /create-booking (first revision): the validation gates,
    then the freebusy conflict check against the fetched busy set, then
    the provider event insertion, visible as the created constructor. -/
def createBooking (b : BookingBody) (busy : List (Int × Int)) : BookingResult :=
  match bookingGate b with
  | .error msg => .badRequest msg
  | .ok (startMs, endMs, dur, src) =>
    if hasConflictMs startMs endMs busy then .conflict CONFLICT_MSG
    else .created (bookingSummary b) (bookingDescription b dur) startMs endMs dur src

def isCreated : BookingResult → Bool
  | .created _ _ _ _ _ _ => true
  | _ => false

/-! ## The create-booking route (second revision) -/

/-- Model of dtLocal composed with the strict luxon format parse of the
    second revision: some instant for a well-formed date and clock time,
    none for an Invalid DateTime. -/
def parseLocalDateTime (date time : String) : Option Int :=
  if dateFormatOk date && timeFormatOk time && validTimeHM time then
    match parseDateYMD date with
    | some dt => some (dateTimeMs dt (toMinutes time))
    | none => none
  else none

inductive Gate2Result
  | missing
  | invalidWindow
  | ready (startMs endMs dur : Int)
deriving DecidableEq, Repr

/-- The pipeline of POST /create-booking (second revision) before the
    conflict check: required fields, the defaulted duration
    Number(durationMinutes or 60) and the local date-time parse.  An
    Invalid DateTime or NaN duration makes the freebusy request itself
    malformed, which the provider rejects: the request ends as a server
    error before any insertion. -/
def bookingGate2 (b : BookingBody) : Gate2Result :=
  if jsStrFalsy b.name || jsStrFalsy b.phone || jsStrFalsy b.date || jsStrFalsy b.time then
    .missing
  else
    let durOpt : Option Int :=
      if jsFalsy b.durationMinutes then some 60 else jsToNumber b.durationMinutes
    match parseLocalDateTime (b.date.getD "") (b.time.getD ""), durOpt with
    | some s, some dur => .ready s (s + dur * 60000) dur
    | _, _ => .invalidWindow

inductive BookingResult2
  | badRequest (error : String)
  | serverError (error : String)
  | conflict (error : String)
  | created (summary description : String) (startMs endMs : Int) (reservedUntil : String)
deriving DecidableEq, Repr

def createBooking2 (b : BookingBody) (busy : List (Int × Int)) : BookingResult2 :=
  match bookingGate2 b with
  | .missing => .badRequest "Missing fields"
  | .invalidWindow => .serverError "Server error"
  | .ready s e dur =>
    if hasConflictMs s e busy then .conflict "Time slot already booked"
    else
      .created ("Sanadenta — " ++ (b.service.getD "Vizitas") ++ " — " ++ (b.name.getD ""))
        ("Pacientas: " ++ (b.name.getD "") ++ "\nTelefonas: " ++ (b.phone.getD ""))
        s e (formatHHMM ((Int.fdiv e 60000) % 1440))

def isCreated2 : BookingResult2 → Bool
  | .created _ _ _ _ _ => true
  | _ => false

/-- A concrete booking request used as a conflict witness: Vizitas (60
    minutes) on Thursday 2026-02-26 at 09:00. -/
def c1Body : BookingBody :=
  ⟨some "Ona", some "860000000", some "2026-02-26", some "09:00",
    some "Vizitas", JSValue.undef⟩

/-- A concrete booking request whose start 08:07 lies off the 15-minute
    grid: Konsultacija on Thursday 2026-02-26. -/
def c9Body : BookingBody :=
  ⟨some "Jonas", some "861111111", some "2026-02-26", some "08:07",
    some "Konsultacija", JSValue.undef⟩

/-! ## Theorems -/

/-- C2: overlaps equals the half-open test aStart less than bEnd and
    aEnd greater than bStart; it is symmetric in the two intervals,
    intervals sharing only a boundary point (08:00-08:15 and 08:15-08:30
    as minutes) do not overlap, and the conflict check over an empty
    busy sequence returns false. -/
theorem overlaps_halfopen_spec :
    (∀ a b c d : Int, overlaps a b c d = (decide (a < d) && decide (b > c)))
    ∧ (∀ a b c d : Int, overlaps a b c d = overlaps c d a b)
    ∧ overlaps 480 495 495 510 = false
    ∧ (∀ s e : Int, hasConflictMs s e [] = false) := by
  refine ⟨fun a b c d => rfl, fun a b c d => ?_, by decide, fun s e => rfl⟩
  exact Bool.and_comm (decide (a < d)) (decide (b > c))

/-- C10: generateDaySlots ignores its date argument: two calls with the
    same work window, step and duration but different dates return the
    identical slot list. -/
theorem generateDaySlots_ignores_date :
    ∀ (d1 d2 startHHMM endHHMM : String) (step dur : Int),
      generateDaySlots d1 startHHMM endHHMM step dur
        = generateDaySlots d2 startHHMM endHHMM step dur :=
  fun _ _ _ _ _ _ => rfl

/-- C5: day-level gating returns the weekday reason exactly when the
    weekday is not allowed, the surgeon-day reason exactly when the
    weekday is allowed but the date is the last Monday of its month, and
    allowed otherwise; 2026-02-23 is a Monday, an allowed weekday, the
    last Monday of February 2026, and is gated as a surgeon day. -/
theorem checkDayAvailability_spec :
    (∀ dt : SimpleDate,
        (checkDayAvailability (some dt) = .notAllowed .weekday
          ↔ isWeekdayAllowed (some dt) = false)
      ∧ (checkDayAvailability (some dt) = .notAllowed .surgeonDay
          ↔ isWeekdayAllowed (some dt) = true ∧ isSurgeonDay (some dt) = true)
      ∧ (checkDayAvailability (some dt) = .allowed
          ↔ isWeekdayAllowed (some dt) = true ∧ isSurgeonDay (some dt) = false))
    ∧ checkDayAvailability (some ⟨2026, 2, 23⟩) = .notAllowed .surgeonDay
    ∧ jsGetDay ⟨2026, 2, 23⟩ = 1
    ∧ isWeekdayAllowed (some ⟨2026, 2, 23⟩) = true
    ∧ getLastMondayOfMonth 2026 1 = ⟨2026, 2, 23⟩ := by
  refine ⟨fun dt => ?_, by decide, by decide, by decide, by decide⟩
  unfold checkDayAvailability
  cases hw : isWeekdayAllowed (some dt) <;> cases hs : isSurgeonDay (some dt) <;>
    simp [hw, hs]

/-- C4: resolveDuration uses the explicit durationMinutes whenever one is
    present, accepting exactly the finite members of the allowed set and
    failing with a validation error otherwise regardless of service;
    with no explicit value a service found in the duration map yields its
    mapped value, and otherwise the configured default 15 is returned;
    each outcome carries the branch that fired as its source tag. -/
theorem resolveDuration_precedence_spec :
    (∀ (service : Option String) (dm : JSValue) (n : Int),
        durationProvided dm = true → jsToNumber dm = some n → n ∈ ALLOWED_DURATIONS →
        resolveDuration service dm = .ok n .durationMinutes)
    ∧ (∀ (service : Option String) (dm : JSValue) (n : Int),
        durationProvided dm = true → jsToNumber dm = some n → n ∉ ALLOWED_DURATIONS →
        resolveDuration service dm = .error "durationMinutes must be one of: 15, 30, 60")
    ∧ (∀ (service : Option String) (dm : JSValue),
        durationProvided dm = true → jsToNumber dm = none →
        resolveDuration service dm = .error "Invalid durationMinutes")
    ∧ (∀ (dm : JSValue) (s : String) (d : Int),
        durationProvided dm = false → SERVICE_DURATIONS s = some d →
        resolveDuration (some s) dm = .ok d .service)
    ∧ (∀ (dm : JSValue) (s : String),
        durationProvided dm = false → SERVICE_DURATIONS s = none →
        resolveDuration (some s) dm = .ok DEFAULT_DURATION_MINUTES .defaultDuration)
    ∧ (∀ dm : JSValue, durationProvided dm = false →
        resolveDuration none dm = .ok DEFAULT_DURATION_MINUTES .defaultDuration)
    ∧ ALLOWED_DURATIONS = [15, 30, 60] ∧ DEFAULT_DURATION_MINUTES = 15 := by
  refine ⟨?_, ?_, ?_, ?_, ?_, ?_, rfl, rfl⟩
  · intro service dm n h1 h2 h3
    simp [resolveDuration, h1, h2, h3]
  · intro service dm n h1 h2 h3
    simp [resolveDuration, h1, h2, h3]
  · intro service dm h1 h2
    simp [resolveDuration, h1, h2]
  · intro dm s d h1 h2
    by_cases hs : s = ""
    · subst hs; simp [SERVICE_DURATIONS] at h2
    · simp [resolveDuration, h1, hs, h2]
  · intro dm s h1 h2
    by_cases hs : s = ""
    · subst hs; simp [resolveDuration, h1]
    · simp [resolveDuration, h1, hs, h2]
  · intro dm h1
    simp [resolveDuration, h1]

/-- Witness for C4 at concrete inputs: an explicit allowed duration wins
    over the service, and without an explicit duration the service map
    decides. -/
theorem resolveDuration_precedence_spec_witness :
    resolveDuration (some "Vizitas") (JSValue.num 30) = .ok 30 .durationMinutes
    ∧ resolveDuration (some "Trumpas vizitas") JSValue.undef = .ok 30 .service :=
  ⟨resolveDuration_precedence_spec.1 (some "Vizitas") (JSValue.num 30) 30
      (by decide) (by decide) (by decide),
   resolveDuration_precedence_spec.2.2.2.1 JSValue.undef "Trumpas vizitas" 30
      (by decide) (by decide)⟩

/-! ## Slot loop characterization (supporting lemmas) -/

lemma slotsFrom_stop (t L step : Int) (h : ¬ t ≤ L) : slotsFrom t L step = [] := by
  rw [slotsFrom, if_neg h]

lemma slotsFrom_step (t L step : Int) (h : t ≤ L) (hs : 0 < step) :
    slotsFrom t L step = t :: slotsFrom (t + step) L step := by
  rw [slotsFrom, if_pos h, if_pos hs]

lemma slotCount_succ (t L step : Int) (h : t ≤ L) (hs : 0 < step) :
    slotCount t L step = slotCount (t + step) L step + 1 := by
  unfold slotCount
  by_cases h2 : t + step ≤ L
  · rw [if_pos h, if_pos h2]
    have hrepr : (L - t).toNat = (L - (t + step)).toNat + step.toNat := by omega
    rw [hrepr, Nat.add_div_right _ (by omega)]
  · rw [if_pos h, if_neg h2]
    have hlt : (L - t).toNat < step.toNat := by omega
    rw [Nat.div_eq_of_lt hlt]

lemma slotsFrom_char_aux (step : Int) (hs : 0 < step) (L : Int) :
    ∀ (n : Nat) (t : Int), (L + 1 - t).toNat = n →
      slotsFrom t L step
        = (List.range (slotCount t L step)).map (fun k : Nat => t + (k : Int) * step) := by
  intro n
  induction n using Nat.strong_induction_on with
  | _ n ih =>
    intro t hn
    by_cases h : t ≤ L
    · rw [slotsFrom_step t L step h hs, slotCount_succ t L step h hs,
        ih ((L + 1 - (t + step)).toNat) (by omega) (t + step) rfl,
        List.range_succ_eq_map]
      simp only [List.map_cons, List.map_map, Nat.cast_zero, zero_mul, add_zero]
      congr 1
      refine List.map_congr_left (fun k _ => ?_)
      simp only [Function.comp_apply]
      push_cast
      ring
    · rw [slotsFrom_stop t L step h]
      unfold slotCount
      rw [if_neg h]
      rfl

lemma slotsFrom_char (t L step : Int) (hs : 0 < step) :
    slotsFrom t L step
      = (List.range (slotCount t L step)).map (fun k : Nat => t + (k : Int) * step) :=
  slotsFrom_char_aux step hs L _ t rfl

lemma slotsFrom_mem_bounds (t L step : Int) (hs : 0 < step) :
    ∀ x ∈ slotsFrom t L step, t ≤ x ∧ x ≤ L := by
  intro x hx
  rw [slotsFrom_char t L step hs] at hx
  obtain ⟨k, hk, rfl⟩ := List.mem_map.mp hx
  have hk' := List.mem_range.mp hk
  by_cases h : t ≤ L
  · unfold slotCount at hk'
    rw [if_pos h] at hk'
    have h1 : k ≤ (L - t).toNat / step.toNat := Nat.lt_succ_iff.mp hk'
    have h2 : k * step.toNat ≤ (L - t).toNat := (Nat.le_div_iff_mul_le (by omega)).mp h1
    have e1 : ((step.toNat : Int)) = step := Int.toNat_of_nonneg (le_of_lt hs)
    have e2 : (((L - t).toNat : Int)) = L - t := Int.toNat_of_nonneg (by omega)
    have h3 : (k : Int) * step ≤ L - t := by
      have h4 := Int.ofNat_le.mpr h2
      rwa [Nat.cast_mul, e1, e2] at h4
    have hnn : 0 ≤ (k : Int) * step := mul_nonneg (by positivity) (le_of_lt hs)
    exact ⟨by linarith, by linarith⟩
  · unfold slotCount at hk'
    rw [if_neg h] at hk'
    omega

lemma slotsFrom_grid_mem (t L step : Int) (hs : 0 < step) (k : Nat)
    (hk : t + (k : Int) * step ≤ L) : t + (k : Int) * step ∈ slotsFrom t L step := by
  rw [slotsFrom_char t L step hs]
  refine List.mem_map.mpr ⟨k, List.mem_range.mpr ?_, rfl⟩
  have hnn : 0 ≤ (k : Int) * step := mul_nonneg (by positivity) (le_of_lt hs)
  have ht : t ≤ L := by linarith
  unfold slotCount
  rw [if_pos ht]
  refine Nat.lt_succ_of_le ((Nat.le_div_iff_mul_le (by omega)).mpr ?_)
  have h1 : (k : Int) * step ≤ L - t := by linarith
  have e1 : ((step.toNat : Int)) = step := Int.toNat_of_nonneg (le_of_lt hs)
  have e2 : (((L - t).toNat : Int)) = L - t := Int.toNat_of_nonneg (by omega)
  have h2 : ((k * step.toNat : Nat) : Int) ≤ (((L - t).toNat : Nat) : Int) := by
    rw [Nat.cast_mul, e1, e2]
    exact h1
  exact_mod_cast h2

lemma slotsFrom_get (t L step : Int) (hs : 0 < step) (i : Nat)
    (h : i < (slotsFrom t L step).length) :
    (slotsFrom t L step).get ⟨i, h⟩ = t + (i : Int) * step := by
  have hc := slotsFrom_char t L step hs
  simp only [List.get_eq_getElem]
  simp only [hc, List.getElem_map, List.getElem_range]

/-- C3: for a valid work window with positive step and duration, the slot
    loop emits exactly the arithmetic sequence from workStart stepping by
    stepMinutes whose members stay at most workEnd minus duration: every
    emitted slot lies in the window, every grid point up to the latest
    start is emitted (so the sequence runs up to and including the
    largest such value), consecutive slots differ by exactly the step,
    and the sequence is empty when the duration exceeds the window; the
    string-level generators of both revisions are the formatted image of
    this minute-level sequence. -/
theorem generateSlots_grid_spec (ws we step dur : Int)
    (hw : ws ≤ we) (hstep : 0 < step) (hdur : 0 < dur) :
    slotsFrom ws (we - dur) step
        = (List.range (slotCount ws (we - dur) step)).map (fun k : Nat => ws + (k : Int) * step)
    ∧ (∀ x ∈ slotsFrom ws (we - dur) step, ws ≤ x ∧ x ≤ we - dur)
    ∧ (∀ k : Nat, ws + (k : Int) * step ≤ we - dur →
        ws + (k : Int) * step ∈ slotsFrom ws (we - dur) step)
    ∧ (∀ (i : Nat) (h : i + 1 < (slotsFrom ws (we - dur) step).length),
        (slotsFrom ws (we - dur) step).get ⟨i + 1, h⟩
          = (slotsFrom ws (we - dur) step).get ⟨i, Nat.lt_of_succ_lt h⟩ + step)
    ∧ (dur > we - ws → slotsFrom ws (we - dur) step = [])
    ∧ (∀ (dateStr sH eH : String), toMinutes sH = ws → toMinutes eH = we →
        generateDaySlots dateStr sH eH step dur = (slotsFrom ws (we - dur) step).map formatHHMM
        ∧ generateSlots sH eH step dur = generateDaySlots dateStr sH eH step dur) := by
  refine ⟨slotsFrom_char ws (we - dur) step hstep,
    slotsFrom_mem_bounds ws (we - dur) step hstep,
    fun k hk => slotsFrom_grid_mem ws (we - dur) step hstep k hk,
    fun i h => ?_, fun hgt => slotsFrom_stop ws (we - dur) step (by omega),
    fun dateStr sH eH h1 h2 => ?_⟩
  · rw [slotsFrom_get ws (we - dur) step hstep (i + 1) h,
      slotsFrom_get ws (we - dur) step hstep i (Nat.lt_of_succ_lt h)]
    push_cast
    ring
  · constructor
    · show (slotsFrom (toMinutes sH) (toMinutes eH - dur) step).map formatHHMM = _
      rw [h1, h2]
    · rfl

/-- Witness for C3 at the configured window 08:00 to 17:00 with step 15
    and duration 60. -/
theorem generateSlots_grid_spec_witness :
    (480 : Int) ≤ 1020 ∧ ((0 : Int) < 15) ∧ ((0 : Int) < 60)
    ∧ slotsFrom 480 (1020 - 60) 15
        = (List.range (slotCount 480 (1020 - 60) 15)).map
            (fun k : Nat => 480 + (k : Int) * 15) :=
  ⟨by decide, by decide, by decide,
    (generateSlots_grid_spec 480 1020 15 60 (by decide) (by decide) (by decide)).1⟩

/-! ## Last-Monday lemmas -/

lemma daysFromCivil_day_shift (y m d k : Int) :
    daysFromCivil y m (d + k) = daysFromCivil y m d + k := by
  simp only [daysFromCivil]
  ring

lemma jsGetDay_shift (y m d k : Int) :
    jsGetDay ⟨y, m, d + k⟩ = (jsGetDay ⟨y, m, d⟩ + k) % 7 := by
  simp only [jsGetDay, daysFromCivil_day_shift]
  omega

lemma jsGetDay_bounds (dt : SimpleDate) : 0 ≤ jsGetDay dt ∧ jsGetDay dt < 7 := by
  unfold jsGetDay
  omega

lemma daysInMonth_bounds (y m : Int) : 28 ≤ daysInMonth y m ∧ daysInMonth y m ≤ 31 := by
  unfold daysInMonth
  split
  · split <;> omega
  · split <;> omega

lemma getLastMondayOfMonth_isLastMonday (y m0 : Int) :
    (getLastMondayOfMonth y m0).year = y
    ∧ (getLastMondayOfMonth y m0).month = m0 + 1
    ∧ 1 ≤ (getLastMondayOfMonth y m0).day
    ∧ (getLastMondayOfMonth y m0).day ≤ daysInMonth y (m0 + 1)
    ∧ jsGetDay (getLastMondayOfMonth y m0) = 1
    ∧ (∀ d : Int, (getLastMondayOfMonth y m0).day < d → d ≤ daysInMonth y (m0 + 1) →
        jsGetDay ⟨y, m0 + 1, d⟩ ≠ 1) := by
  obtain ⟨hw0, hw1⟩ := jsGetDay_bounds ⟨y, m0 + 1, daysInMonth y (m0 + 1)⟩
  obtain ⟨hm0, hm1⟩ := daysInMonth_bounds y (m0 + 1)
  set w := jsGetDay ⟨y, m0 + 1, daysInMonth y (m0 + 1)⟩ with hwdef
  set diff := if w ≥ 1 then w - 1 else 6 with hdiffdef
  have hdb : 0 ≤ diff ∧ diff ≤ 6 := by rw [hdiffdef]; split <;> omega
  have hr : getLastMondayOfMonth y m0 = ⟨y, m0 + 1, daysInMonth y (m0 + 1) - diff⟩ := rfl
  obtain ⟨hg0, hg1⟩ := jsGetDay_bounds ⟨y, m0 + 1, daysInMonth y (m0 + 1) - diff⟩
  have hshift : jsGetDay ⟨y, m0 + 1, (daysInMonth y (m0 + 1) - diff) + diff⟩
      = (jsGetDay ⟨y, m0 + 1, daysInMonth y (m0 + 1) - diff⟩ + diff) % 7 :=
    jsGetDay_shift y (m0 + 1) (daysInMonth y (m0 + 1) - diff) diff
  rw [show (daysInMonth y (m0 + 1) - diff) + diff = daysInMonth y (m0 + 1) by ring] at hshift
  rw [← hwdef] at hshift
  have hMon : jsGetDay ⟨y, m0 + 1, daysInMonth y (m0 + 1) - diff⟩ = 1 := by
    rcases le_or_lt 1 w with hwge | hwlt
    · have hdv : diff = w - 1 := by rw [hdiffdef]; exact if_pos hwge
      omega
    · have hdv : diff = 6 := by rw [hdiffdef]; exact if_neg (by omega)
      omega
  rw [hr]
  refine ⟨rfl, rfl, show (1 : Int) ≤ daysInMonth y (m0 + 1) - diff by omega,
    show daysInMonth y (m0 + 1) - diff ≤ daysInMonth y (m0 + 1) by omega, hMon, ?_⟩
  intro d hd1 hd2
  have hd1' : daysInMonth y (m0 + 1) - diff < d := hd1
  have hdrepr : d = (daysInMonth y (m0 + 1) - diff) + (d - (daysInMonth y (m0 + 1) - diff)) := by
    ring
  rw [hdrepr, jsGetDay_shift, hMon]
  omega

/-- C6: for every month of every year (0-based month index 0..11) the
    computed date lies in that month, falls on a Monday, and no later day
    of the month is a Monday, so it is the last Monday of the month; for
    February 2024 it is 2024-02-26, and for a month whose last calendar
    day is a Monday it is that last day itself. -/
theorem getLastMondayOfMonth_correct :
    (∀ y m0 : Int, 0 ≤ m0 → m0 < 12 →
        (getLastMondayOfMonth y m0).year = y
      ∧ (getLastMondayOfMonth y m0).month = m0 + 1
      ∧ 1 ≤ (getLastMondayOfMonth y m0).day
      ∧ (getLastMondayOfMonth y m0).day ≤ daysInMonth y (m0 + 1)
      ∧ jsGetDay (getLastMondayOfMonth y m0) = 1
      ∧ (∀ d : Int, (getLastMondayOfMonth y m0).day < d → d ≤ daysInMonth y (m0 + 1) →
            jsGetDay ⟨y, m0 + 1, d⟩ ≠ 1))
    ∧ getLastMondayOfMonth 2024 1 = ⟨2024, 2, 26⟩
    ∧ (∀ y m0 : Int, 0 ≤ m0 → m0 < 12 →
        jsGetDay ⟨y, m0 + 1, daysInMonth y (m0 + 1)⟩ = 1 →
        getLastMondayOfMonth y m0 = ⟨y, m0 + 1, daysInMonth y (m0 + 1)⟩) := by
  refine ⟨fun y m0 _ _ => getLastMondayOfMonth_isLastMonday y m0, by decide, ?_⟩
  intro y m0 _ _ hMon
  show (⟨y, m0 + 1, daysInMonth y (m0 + 1) -
      (if jsGetDay ⟨y, m0 + 1, daysInMonth y (m0 + 1)⟩ ≥ 1 then
        jsGetDay ⟨y, m0 + 1, daysInMonth y (m0 + 1)⟩ - 1 else 6)⟩ : SimpleDate) = _
  rw [hMon]
  norm_num

/-- Witness for C6: February 2024 (a leap year) and June 2025, whose last
    calendar day 2025-06-30 is itself a Monday. -/
theorem getLastMondayOfMonth_correct_witness :
    jsGetDay (getLastMondayOfMonth 2024 1) = 1
    ∧ getLastMondayOfMonth 2025 5 = ⟨2025, 6, 30⟩ :=
  ⟨(getLastMondayOfMonth_correct.1 2024 1 (by decide) (by decide)).2.2.2.2.1,
   by
    have h := getLastMondayOfMonth_correct.2.2 2025 5 (by decide) (by decide) (by decide)
    simpa using h⟩

/-- C7: when the requested date fails the day-level gate, the free-slots
    route answers with a success response (not an error status) carrying
    allowed false, the exclusion reason and an empty slot list, and its
    answer is independent of the busy data, so no slot computation takes
    place. -/
theorem freeSlots_notAllowed_informational :
    ∀ (date : String) (service : Option String) (dm : JSValue) (busy : List (Int × Int))
      (dt : SimpleDate) (dur : Int) (src : DurationSource) (r : DayReason),
      dateFormatOk date = true →
      resolveDuration service dm = .ok dur src →
      parseDateYMD date = some dt →
      checkDayAvailability (some dt) = .notAllowed r →
      freeSlots date service dm busy = .success ⟨false, some (reasonMessage r), dur, none, []⟩
      ∧ freeSlots date service dm busy = freeSlots date service dm [] := by
  intro date service dm busy dt dur src r h1 h2 h3 h4
  have key : ∀ busy2 : List (Int × Int),
      freeSlots date service dm busy2
        = .success ⟨false, some (reasonMessage r), dur, none, []⟩ := by
    intro busy2
    unfold freeSlots
    rw [h1, h2]
    simp only [Bool.not_true, Bool.false_eq_true, if_false, ite_false]
    rw [h3, h4]
  exact ⟨key busy, (key busy).trans (key []).symm⟩

/-- Witness for C7: 2026-02-23 is a surgeon day; the response ignores a
    nonempty busy list. -/
theorem freeSlots_notAllowed_informational_witness :
    freeSlots "2026-02-23" none JSValue.undef [(0, 1)]
      = .success ⟨false, some (reasonMessage .surgeonDay), 15, none, []⟩ :=
  (freeSlots_notAllowed_informational "2026-02-23" none JSValue.undef [(0, 1)]
    ⟨2026, 2, 23⟩ 15 .defaultDuration .surgeonDay
    (by decide) (by decide) (by decide) (by decide)).1

/-- C1: in both revisions of the booking route, once every validation
    gate has passed, an overlap between the freshly fetched busy set and
    the candidate interval yields the conflict response (HTTP 409) and
    the provider insertEvent is not reached, while a created outcome can
    only arise from a passed gate together with a conflict-free busy set,
    so the calendar is unchanged on a conflict outcome. -/
theorem createBooking_conflict_blocks_insert :
    (∀ (b : BookingBody) (busy : List (Int × Int)) (s e dur : Int) (src : DurationSource),
        bookingGate b = .ok (s, e, dur, src) → hasConflictMs s e busy = true →
        createBooking b busy = .conflict CONFLICT_MSG)
    ∧ (∀ (b : BookingBody) (busy : List (Int × Int)) (s e dur : Int) (src : DurationSource),
        bookingGate b = .ok (s, e, dur, src) → hasConflictMs s e busy = false →
        createBooking b busy
          = .created (bookingSummary b) (bookingDescription b dur) s e dur src)
    ∧ (∀ (b : BookingBody) (busy : List (Int × Int)),
        isCreated (createBooking b busy) = true →
        ∃ s e dur src, bookingGate b = .ok (s, e, dur, src) ∧ hasConflictMs s e busy = false)
    ∧ (∀ (b : BookingBody) (busy : List (Int × Int)) (s e dur : Int),
        bookingGate2 b = .ready s e dur → hasConflictMs s e busy = true →
        createBooking2 b busy = .conflict "Time slot already booked")
    ∧ (∀ (b : BookingBody) (busy : List (Int × Int)),
        isCreated2 (createBooking2 b busy) = true →
        ∃ s e dur, bookingGate2 b = .ready s e dur ∧ hasConflictMs s e busy = false) := by
  refine ⟨?_, ?_, ?_, ?_, ?_⟩
  · intro b busy s e dur src hg hc
    unfold createBooking
    rw [hg]
    simp [hc]
  · intro b busy s e dur src hg hc
    unfold createBooking
    rw [hg]
    simp [hc]
  · intro b busy h
    rcases hgg : bookingGate b with msg | v
    · rw [createBooking, hgg] at h
      simp [isCreated] at h
    · obtain ⟨s, e, dur, src⟩ := v
      refine ⟨s, e, dur, src, rfl, ?_⟩
      cases hcf : hasConflictMs s e busy
      · rfl
      · rw [createBooking, hgg] at h
        simp [hcf, isCreated] at h
  · intro b busy s e dur hg hc
    unfold createBooking2
    rw [hg]
    simp [hc]
  · intro b busy h
    cases hgg : bookingGate2 b with
    | missing =>
      rw [createBooking2, hgg] at h
      simp [isCreated2] at h
    | invalidWindow =>
      rw [createBooking2, hgg] at h
      simp [isCreated2] at h
    | ready s e dur =>
      refine ⟨s, e, dur, rfl, ?_⟩
      cases hcf : hasConflictMs s e busy
      · rfl
      · rw [createBooking2, hgg] at h
        simp [hcf, isCreated2] at h

/-- Witness for C1: a fetched busy interval 09:30-10:30 on 2026-02-26
    overlaps the 09:00-10:00 candidate, and the route answers with the
    conflict response. -/
theorem createBooking_conflict_blocks_insert_witness :
    createBooking c1Body
        [(dateTimeMs ⟨2026, 2, 26⟩ 570, dateTimeMs ⟨2026, 2, 26⟩ 630)]
      = .conflict CONFLICT_MSG :=
  createBooking_conflict_blocks_insert.1 c1Body
    [(dateTimeMs ⟨2026, 2, 26⟩ 570, dateTimeMs ⟨2026, 2, 26⟩ 630)]
    (dateTimeMs ⟨2026, 2, 26⟩ 540) (dateTimeMs ⟨2026, 2, 26⟩ 540 + 60 * 60000) 60 .service
    (by rfl) (by decide)

/-- C9: the booking route never validates grid alignment: the request
    time 08:07 with duration 15 passes the time-format check and the
    working-hours check even though it is not a multiple of the
    15-minute step from work start, every validation gate passes, and
    for every busy set the outcome is decided purely by the conflict
    check over the off-grid candidate interval. -/
theorem createBooking_no_grid_alignment_check :
    timeFormatOk "08:07" = true
    ∧ validateWithinWorkingHours "08:07" 15 = true
    ∧ (toMinutes "08:07" - toMinutes WORK_START) % 15 ≠ 0
    ∧ bookingGate c9Body
        = .ok (dateTimeMs ⟨2026, 2, 26⟩ (toMinutes "08:07"),
            dateTimeMs ⟨2026, 2, 26⟩ (toMinutes "08:07") + 15 * 60000, 15, .service)
    ∧ (∀ busy : List (Int × Int),
        createBooking c9Body busy =
          if hasConflictMs (dateTimeMs ⟨2026, 2, 26⟩ (toMinutes "08:07"))
              (dateTimeMs ⟨2026, 2, 26⟩ (toMinutes "08:07") + 15 * 60000) busy
          then .conflict CONFLICT_MSG
          else .created (bookingSummary c9Body) (bookingDescription c9Body 15)
              (dateTimeMs ⟨2026, 2, 26⟩ (toMinutes "08:07"))
              (dateTimeMs ⟨2026, 2, 26⟩ (toMinutes "08:07") + 15 * 60000) 15 .service) := by
  have hg : bookingGate c9Body
      = .ok (dateTimeMs ⟨2026, 2, 26⟩ (toMinutes "08:07"),
          dateTimeMs ⟨2026, 2, 26⟩ (toMinutes "08:07") + 15 * 60000, 15, .service) := by rfl
  refine ⟨by decide, by decide, by decide, hg, fun busy => ?_⟩
  unfold createBooking
  rw [hg]

/-- C8 counterexample: for the concrete date 2026-02-26 the busy window
    the first revision fetches ends at 23:59:59, one second before the
    end of the full day, and a busy interval lying inside the final
    second of the day overlaps the full day but not the fetched window. -/
theorem freeSlots_fetch_window_not_full_day :
    freeSlotsFetchWindowRev1 "2026-02-26" ≠ some (dayWindow ⟨2026, 2, 26⟩)
    ∧ freeSlotsFetchWindowRev1 "2026-02-26"
        = some ((dayWindow ⟨2026, 2, 26⟩).1, (dayWindow ⟨2026, 2, 26⟩).2 - 1000)
    ∧ overlaps ((dayWindow ⟨2026, 2, 26⟩).2 - 800) ((dayWindow ⟨2026, 2, 26⟩).2 - 200)
        (dayWindow ⟨2026, 2, 26⟩).1 (dayWindow ⟨2026, 2, 26⟩).2 = true
    ∧ overlaps ((dayWindow ⟨2026, 2, 26⟩).2 - 800) ((dayWindow ⟨2026, 2, 26⟩).2 - 200)
        (dayWindow ⟨2026, 2, 26⟩).1 ((dayWindow ⟨2026, 2, 26⟩).2 - 1000) = false :=
  ⟨by decide, by decide, by decide, by decide⟩

/-- C8 amended: for every parseable date the second revision fetches
    exactly the full half-open day window from dayStart to dayStart plus
    24 hours, while the first revision fetches the window ending one
    second earlier, at 23:59:59 of the day. -/
theorem freeSlots_fetch_window_amended :
    ∀ (date : String) (dt : SimpleDate), parseDateYMD date = some dt →
      freeSlotsFetchWindowRev2 date = some (dayWindow dt)
      ∧ freeSlotsFetchWindowRev1 date = some ((dayWindow dt).1, (dayWindow dt).2 - 1000) := by
  intro date dt h
  have h2 : freeSlotsFetchWindowRev2 date = some (dateTimeSecMs dt 0, dateTimeSecMs dt 86400) := by
    unfold freeSlotsFetchWindowRev2
    rw [h]
  have h1 : freeSlotsFetchWindowRev1 date = some (dateTimeSecMs dt 0, dateTimeSecMs dt 86399) := by
    unfold freeSlotsFetchWindowRev1
    rw [h]
  constructor
  · rw [h2]
    unfold dayWindow dateTimeSecMs
    simp only [Option.some.injEq, Prod.mk.injEq]
    constructor <;> ring_nf
  · rw [h1]
    unfold dayWindow dateTimeSecMs
    simp only [Option.some.injEq, Prod.mk.injEq]
    constructor <;> ring_nf

/-- Witness for C8 amended at the concrete date 2026-02-26. -/
theorem freeSlots_fetch_window_amended_witness :
    freeSlotsFetchWindowRev2 "2026-02-26" = some (dayWindow ⟨2026, 2, 26⟩) :=
  (freeSlots_fetch_window_amended "2026-02-26" ⟨2026, 2, 26⟩ (by decide)).1
